import Mathlib

/-!
Shallow embedding of the actor-critic model code in
`cleanrl/ppo_continuous_action_isaacgym/ppo_continuous_action_isaacgym.ipynb`.

Tensors are modelled as lists of real numbers (vectors) and lists of rows
(matrices).  Because several claims are about aliasing (deep copies versus
shared mutable storage), parameter tensors live in an explicit store: a layer
holds references (natural-number cells) into the store, `deepcopy` allocates
fresh cells, and mutation is a store update.  The forward mathematics
(`linearApply`, the Gaussian log-density and entropy, the summation over the
action dimension) is value-level real arithmetic.
-/

namespace CleanRLPPO

abbrev Vec : Type := List ℝ

abbrev Mat : Type := List (List ℝ)

/-- Dot product of two rows (truncating at the shorter one, as a rectangular
tensor contraction never exercises). -/
def dot (r x : Vec) : ℝ := (List.zipWith (fun a b => a * b) r x).sum

/-- Forward pass of a linear layer `y = W x + b`, one output coordinate per
(weight-row, bias-entry) pair. -/
def linearApply (w : Mat) (b : Vec) (x : Vec) : Vec :=
  List.zipWith (fun row bi => dot row x + bi) w b

/-- Row count of a weight matrix: `weights.shape[0]`, the output features. -/
def matRows (m : Mat) : Nat := m.length

/-- Column count of a weight matrix: `weights.shape[1]`, the input features. -/
def matCols (m : Mat) : Nat :=
  match m with
  | [] => 0
  | r :: _ => r.length

/-- A store cell holds one parameter tensor (a matrix or a vector). -/
inductive Cell where
  | mat (m : Mat)
  | vec (v : Vec)

/-- The parameter store: cell index to tensor. -/
def Store : Type := Nat → Cell

def setCell (σ : Store) (r : Nat) (c : Cell) : Store :=
  fun i => if i = r then c else σ i

def readMat (σ : Store) (r : Nat) : Mat :=
  match σ r with
  | Cell.mat m => m
  | Cell.vec _ => []

def readVec (σ : Store) (r : Nat) : Vec :=
  match σ r with
  | Cell.vec v => v
  | Cell.mat _ => []

/-- A store together with its allocation frontier: cells at indices below
`next` are live, allocation hands out `next` and bumps it. -/
structure AllocState where
  heap : Store
  next : Nat

def allocMat (s : AllocState) (m : Mat) : AllocState :=
  ⟨setCell s.heap s.next (Cell.mat m), s.next + 1⟩

def allocVec (s : AllocState) (v : Vec) : AllocState :=
  ⟨setCell s.heap s.next (Cell.vec v), s.next + 1⟩

/-- One component of an `nn.Sequential`: a deterministic `nn.Linear` (declared
in/out features plus references to its weight and bias cells), an `nn.Tanh`, a
`BayesianLinear` (neuron-type counts plus references to the cells of the
weight/bias distribution parameters), or any other module kind (tagged). -/
inductive RComp where
  | linear (inF outF : Nat) (wRef bRef : Nat)
  | tanh
  | bayesLinear (inF outF nTypesIn nTypesOut : Nat) (wMeanRef wSpreadRef bMeanRef bSpreadRef : Nat)
  | other (tag : Nat)

def compRefs : RComp → List Nat
  | RComp.linear _ _ wr br => [wr, br]
  | RComp.tanh => []
  | RComp.bayesLinear _ _ _ _ wm ws bm bs => [wm, ws, bm, bs]
  | RComp.other _ => []

def RComp.isBayesLinearC : RComp → Bool
  | RComp.bayesLinear _ _ _ _ _ _ _ _ => true
  | _ => false

def RComp.isLinearC : RComp → Bool
  | RComp.linear _ _ _ _ => true
  | _ => false

/-- An agent as the code lays it out: a critic sequence, an actor-mean
sequence and the `actor_logstd` parameter (a reference to its cell).  `Agent`,
`BayesianAgent` and `SampledAgent` all share this record shape; they differ
only in which component kinds their sequences contain. -/
structure AgentR where
  critic : List RComp
  actor_mean : List RComp
  actor_logstd : Nat

def refsOfSeq (cs : List RComp) : List Nat :=
  cs.foldr (fun c acc => compRefs c ++ acc) []

/-- Every parameter cell the agent's layers and `actor_logstd` point to. -/
def agentRefs (A : AgentR) : List Nat :=
  refsOfSeq A.actor_mean ++ refsOfSeq A.critic ++ [A.actor_logstd]

noncomputable def softplus (x : ℝ) : ℝ := Real.log (1 + Real.exp x)

/-- Modelled from the spec: `custom_layers.BayesianLinear` is not among the
sources, so its `weight_sampler.sample()` / `bias_sampler.sample()` follow
spec sections 3 and 4.1 — one draw per element from the layer's current
(mean, spread) pair, with a softplus-like transform guaranteeing a positive
standard deviation, the pseudorandom input `ε` supplied externally. -/
noncomputable def sampleScalar (μ s ε : ℝ) : ℝ := μ + softplus s * ε

def zipWith3 (f : α → β → γ → δ) : List α → List β → List γ → List δ
  | a :: as, b :: bs, c :: cs => f a b c :: zipWith3 f as bs cs
  | _, _, _ => []

noncomputable def sampleVec (mean spread ε : Vec) : Vec :=
  zipWith3 sampleScalar mean spread ε

noncomputable def sampleMat (mean spread ε : Mat) : Mat :=
  zipWith3 sampleVec mean spread ε

/-- `BayesianAgent.construct_vanilla_layer`: build
`nn.Linear(weights.shape[1], weights.shape[0])` — which allocates fresh weight
and bias cells filled with the library's initialization `init` — and then
overwrite both cells by direct `.data` assignment with the sampled tensors. -/
def construct_vanilla_layer (s : AllocState) (init : Mat × Vec) (weights : Mat) (biases : Vec) :
    AllocState × RComp :=
  let s1 := allocVec (allocMat s init.1) init.2
  let s2 : AllocState :=
    ⟨setCell (setCell s1.heap s.next (Cell.mat weights)) (s.next + 1) (Cell.vec biases), s1.next⟩
  (s2, RComp.linear (matCols weights) (matRows weights) s.next (s.next + 1))

/-- `deepcopy` of a deterministic linear layer: fresh cells holding copies of
the current weight and bias values, same declared dimensions. -/
def deepcopyLinear (s : AllocState) (inF outF wr br : Nat) : AllocState × RComp :=
  (allocVec (allocMat s (readMat s.heap wr)) (readVec s.heap br),
   RComp.linear inF outF s.next (s.next + 1))

/-- The per-sub-network loop of `BayesianAgent.sample_vanilla_agent`: a
`BayesianLinear` is replaced by a vanilla layer built from one fresh sample of
its weight/bias distributions followed by a new `nn.Tanh()`; an `nn.Linear` is
deep-copied; every other component kind is skipped.  `k` counts the sample
draws taken so far (indexing the pseudorandom streams `draws` and the
library initializations `inits`). -/
noncomputable def sampleSeqR (draws inits : Nat → Mat × Vec) :
    List RComp → AllocState → Nat → List RComp × AllocState × Nat
  | [], s, k => ([], s, k)
  | RComp.bayesLinear _ _ _ _ wm ws bm bs :: rest, s, k =>
    let w := sampleMat (readMat s.heap wm) (readMat s.heap ws) (draws k).1
    let v := sampleVec (readVec s.heap bm) (readVec s.heap bs) (draws k).2
    let p := construct_vanilla_layer s (inits k) w v
    let t := sampleSeqR draws inits rest p.1 (k + 1)
    (p.2 :: RComp.tanh :: t.1, t.2)
  | RComp.linear inF outF wr br :: rest, s, k =>
    let p := deepcopyLinear s inF outF wr br
    let t := sampleSeqR draws inits rest p.1 k
    (p.2 :: t.1, t.2)
  | RComp.tanh :: rest, s, k => sampleSeqR draws inits rest s k
  | RComp.other _ :: rest, s, k => sampleSeqR draws inits rest s k

/-- `BayesianAgent.sample_vanilla_agent`: run the loop over the actor-mean
sequence, then over the critic sequence, deep-copy `actor_logstd` into a fresh
cell, and assemble the `SampledAgent`. -/
noncomputable def sample_vanilla_agent (A : AgentR) (draws inits : Nat → Mat × Vec) (s : AllocState) :
    AgentR × AllocState :=
  let am := sampleSeqR draws inits A.actor_mean s 0
  let cr := sampleSeqR draws inits A.critic am.2.1 am.2.2
  let fin := allocVec cr.2.1 (readVec cr.2.1.heap A.actor_logstd)
  (⟨cr.1, am.1, cr.2.1.next⟩, fin)

/-- Forward pass of one sequential component, reading parameters from the
store.  `BayesianLinear`'s own forward lives in `custom_layers` (not among the
sources) and never occurs in a sampled network, so it and unknown components
pass the input through. -/
noncomputable def evalCompR (σ : Store) : RComp → Vec → Vec
  | RComp.linear _ _ wr br, x => linearApply (readMat σ wr) (readVec σ br) x
  | RComp.tanh, x => x.map Real.tanh
  | RComp.bayesLinear _ _ _ _ _ _ _ _, x => x
  | RComp.other _, x => x

noncomputable def seqApplyR (σ : Store) (cs : List RComp) (x : Vec) : Vec :=
  cs.foldl (fun v c => evalCompR σ c v) x

/-- `self.actor_mean(x)` applied to a batch of observations, one row each. -/
noncomputable def actorMeanBatch (σ : Store) (A : AgentR) (xs : List Vec) : List Vec :=
  xs.map (seqApplyR σ A.actor_mean)

/-- `tensor.expand_as(m)`: broadcast a (1, D) row to the batch shape of `m`. -/
def expand_as (row : Vec) (m : List Vec) : List Vec :=
  m.map (fun _ => row)

/-- `action_std = torch.exp(self.actor_logstd.expand_as(action_mean))`. -/
noncomputable def policy_action_std (σ : Store) (A : AgentR) (xs : List Vec) : List Vec :=
  (expand_as (readVec σ A.actor_logstd) (actorMeanBatch σ A xs)).map (fun r => r.map Real.exp)

/-- Log-density of a scalar Gaussian with mean `μ` and standard deviation `s`
at `x`, as `torch.distributions.Normal.log_prob` computes it. -/
noncomputable def normalLogPdf (μ s x : ℝ) : ℝ :=
  -((x - μ) ^ 2) / (2 * s ^ 2) - Real.log s - Real.log (Real.sqrt (2 * Real.pi))

/-- Entropy of a scalar Gaussian with standard deviation `s`, as
`torch.distributions.Normal.entropy` computes it. -/
noncomputable def normalEntropy (s : ℝ) : ℝ :=
  1 / 2 + Real.log (2 * Real.pi) / 2 + Real.log s

/-- `probs.log_prob(action).sum(1)` for one batch row. -/
noncomputable def rowLogProb (μs ss a : Vec) : ℝ := (zipWith3 normalLogPdf μs ss a).sum

/-- `probs.entropy().sum(1)` for one batch row. -/
noncomputable def rowEntropy (ss : Vec) : ℝ := (ss.map normalEntropy).sum

/-- `Agent.get_value`: the critic network applied to each observation row. -/
noncomputable def get_value (σ : Store) (A : AgentR) (xs : List Vec) : List Vec :=
  xs.map (seqApplyR σ A.critic)

/-- `Agent.get_action_and_value`: the actor mean, the broadcast
state-independent standard deviation, the (sampled or supplied) action, the
per-row summed Gaussian log-probability and entropy, and the critic value.
When `action` is absent, the Gaussian draw is `mean + std * ε` with the
standard-normal pseudorandom input `noise` supplied externally. -/
noncomputable def get_action_and_value (σ : Store) (A : AgentR) (xs : List Vec)
    (action : Option (List Vec)) (noise : List Vec) :
    List Vec × List ℝ × List ℝ × List Vec :=
  let action_mean := actorMeanBatch σ A xs
  let action_std := policy_action_std σ A xs
  let act :=
    match action with
    | some a => a
    | none => zipWith3 (fun μrow srow εrow => zipWith3 (fun μ s e => μ + s * e) μrow srow εrow)
        action_mean action_std noise
  (act, zipWith3 rowLogProb action_mean action_std act, action_std.map rowEntropy,
   xs.map (seqApplyR σ A.critic))

/-- Cell references of the parameter tensors of `BayesianAgent.__init__`'s
layers: two Bayesian layers (four distribution-parameter cells each) and one
output linear layer (two cells) per sub-network, plus `actor_logstd`. -/
structure ArchRefs where
  cW1 : Nat
  cS1 : Nat
  cB1 : Nat
  cT1 : Nat
  cW2 : Nat
  cS2 : Nat
  cB2 : Nat
  cT2 : Nat
  cOutW : Nat
  cOutB : Nat
  aW1 : Nat
  aS1 : Nat
  aB1 : Nat
  aT1 : Nat
  aW2 : Nat
  aS2 : Nat
  aB2 : Nat
  aT2 : Nat
  aOutW : Nat
  aOutB : Nat
  logstd : Nat

/-- `BayesianAgent.__init__`: both sub-networks are
`BayesianLinear(obsDim, 256), Tanh, BayesianLinear(256, 256), Tanh` followed
by a hard-coded deterministic `nn.Linear` output layer (`256 → 1` for the
critic, `256 → actDim` for the actor mean); the commented-out Bayesian output
layers are not part of the architecture. -/
def bayesianAgent (obsDim actDim nCellTypes : Nat) (R : ArchRefs) : AgentR :=
  ⟨[RComp.bayesLinear obsDim 256 nCellTypes nCellTypes R.cW1 R.cS1 R.cB1 R.cT1,
    RComp.tanh,
    RComp.bayesLinear 256 256 nCellTypes nCellTypes R.cW2 R.cS2 R.cB2 R.cT2,
    RComp.tanh,
    RComp.linear 256 1 R.cOutW R.cOutB],
   [RComp.bayesLinear obsDim 256 nCellTypes nCellTypes R.aW1 R.aS1 R.aB1 R.aT1,
    RComp.tanh,
    RComp.bayesLinear 256 256 nCellTypes nCellTypes R.aW2 R.aS2 R.aB2 R.aT2,
    RComp.tanh,
    RComp.linear 256 actDim R.aOutW R.aOutB],
   R.logstd⟩

/-- A gym space, as far as the notebook's setup cell inspects it. -/
inductive GymSpace where
  | box (shape : List Nat)
  | discrete (n : Nat)
  | multiDiscrete (ns : List Nat)
  | dict

def GymSpace.isBox : GymSpace → Bool
  | GymSpace.box _ => true
  | _ => false

def GymSpace.shape : GymSpace → List Nat
  | GymSpace.box sh => sh
  | _ => []

def GymSpace.shapeProd (s : GymSpace) : Nat := s.shape.prod

/-- The notebook's setup cell: assert
`isinstance(envs.single_action_space, gym.spaces.Box)` and only then construct
the `BayesianAgent`; a failed assertion aborts before any construction. -/
def make_agent_setup (obsSpace actSpace : GymSpace) (nCellTypes : Nat) (R : ArchRefs) :
    Except String AgentR :=
  if actSpace.isBox then
    Except.ok (bayesianAgent obsSpace.shapeProd actSpace.shapeProd nCellTypes R)
  else
    Except.error "only continuous action space is supported"

/-! Concrete fixtures: a store and deterministic agent with observation
dimension 48, action dimension 12 and batch size 2, used as inputs by the
witness theorems below. -/

def wStore48 : Store := fun i =>
  if i = 0 then Cell.mat (List.replicate 12 (List.replicate 48 (0 : ℝ)))
  else if i = 1 then Cell.vec (List.replicate 12 (0 : ℝ))
  else if i = 2 then Cell.mat [List.replicate 48 (0 : ℝ)]
  else if i = 3 then Cell.vec [(0 : ℝ)]
  else Cell.vec (List.replicate 12 (0 : ℝ))

def wAgent48 : AgentR := ⟨[RComp.linear 48 1 2 3], [RComp.linear 48 12 0 1], 4⟩

def wObs48 : List Vec := [List.replicate 48 (0 : ℝ), List.replicate 48 (1 : ℝ)]

def wNoise12 : List Vec := [List.replicate 12 (0 : ℝ), List.replicate 12 (0 : ℝ)]

def wAction12 : List Vec := [List.replicate 12 (2 : ℝ), List.replicate 12 (3 : ℝ)]

/-! Store and allocation lemmas. -/

theorem setCell_ne (σ : Store) (r q : Nat) (c : Cell) (h : q ≠ r) :
    setCell σ r c q = σ q := by
  simp [setCell, h]

theorem readMat_eq_of (σ σ' : Store) (q : Nat) (h : σ q = σ' q) :
    readMat σ q = readMat σ' q := by
  unfold readMat
  rw [h]

theorem readVec_eq_of (σ σ' : Store) (q : Nat) (h : σ q = σ' q) :
    readVec σ q = readVec σ' q := by
  unfold readVec
  rw [h]

theorem readMat_setCell_self (σ : Store) (r : Nat) (m : Mat) :
    readMat (setCell σ r (Cell.mat m)) r = m := by
  simp [readMat, setCell]

theorem readVec_setCell_self (σ : Store) (r : Nat) (v : Vec) :
    readVec (setCell σ r (Cell.vec v)) r = v := by
  simp [readVec, setCell]

theorem construct_vanilla_layer_next (s : AllocState) (init : Mat × Vec) (w : Mat) (b : Vec) :
    (construct_vanilla_layer s init w b).1.next = s.next + 2 := rfl

theorem deepcopyLinear_next (s : AllocState) (i o wr br : Nat) :
    (deepcopyLinear s i o wr br).1.next = s.next + 2 := rfl

theorem construct_vanilla_layer_heap_lt (s : AllocState) (init : Mat × Vec) (w : Mat) (b : Vec)
    (q : Nat) (h : q < s.next) :
    (construct_vanilla_layer s init w b).1.heap q = s.heap q := by
  have h1 : q ≠ s.next := by omega
  have h2 : q ≠ s.next + 1 := by omega
  simp [construct_vanilla_layer, allocMat, allocVec, setCell, h1, h2]

theorem deepcopyLinear_heap_lt (s : AllocState) (i o wr br q : Nat) (h : q < s.next) :
    (deepcopyLinear s i o wr br).1.heap q = s.heap q := by
  have h1 : q ≠ s.next := by omega
  have h2 : q ≠ s.next + 1 := by omega
  simp [deepcopyLinear, allocMat, allocVec, setCell, h1, h2]

/-! Freshness and frame lemmas for the sampling loop. -/

theorem sampleSeqR_next_mono (draws inits : Nat → Mat × Vec) (cs : List RComp) :
    ∀ s k, s.next ≤ (sampleSeqR draws inits cs s k).2.1.next := by
  induction cs with
  | nil => intro s k; simp [sampleSeqR]
  | cons c rest ih =>
    intro s k
    cases c with
    | bayesLinear iF oF ni no wm ws bm bs =>
      simp only [sampleSeqR]
      refine le_trans ?_ (ih _ _)
      rw [construct_vanilla_layer_next]
      omega
    | linear iF oF wr br =>
      simp only [sampleSeqR]
      refine le_trans ?_ (ih _ _)
      rw [deepcopyLinear_next]
      omega
    | tanh => simpa only [sampleSeqR] using ih s k
    | other t => simpa only [sampleSeqR] using ih s k

theorem sampleSeqR_heap_lt (draws inits : Nat → Mat × Vec) (cs : List RComp) :
    ∀ s k q, q < s.next → (sampleSeqR draws inits cs s k).2.1.heap q = s.heap q := by
  induction cs with
  | nil => intro s k q _; simp [sampleSeqR]
  | cons c rest ih =>
    intro s k q hq
    cases c with
    | bayesLinear iF oF ni no wm ws bm bs =>
      simp only [sampleSeqR]
      rw [ih _ _ _ (by rw [construct_vanilla_layer_next]; omega)]
      exact construct_vanilla_layer_heap_lt _ _ _ _ _ hq
    | linear iF oF wr br =>
      simp only [sampleSeqR]
      rw [ih _ _ _ (by rw [deepcopyLinear_next]; omega)]
      exact deepcopyLinear_heap_lt _ _ _ _ _ _ hq
    | tanh => simpa only [sampleSeqR] using ih s k q hq
    | other t => simpa only [sampleSeqR] using ih s k q hq

theorem sampleSeqR_refs_ge (draws inits : Nat → Mat × Vec) (cs : List RComp) :
    ∀ s k, ∀ c ∈ (sampleSeqR draws inits cs s k).1, ∀ q ∈ compRefs c, s.next ≤ q := by
  induction cs with
  | nil => intro s k c hc; simp [sampleSeqR] at hc
  | cons c0 rest ih =>
    intro s k c hc q hq
    cases c0 with
    | bayesLinear iF oF ni no wm ws bm bs =>
      simp only [sampleSeqR, List.mem_cons] at hc
      rcases hc with h | h | h
      · subst h
        simp only [construct_vanilla_layer, compRefs, List.mem_cons] at hq
        rcases hq with h | h | h
        · omega
        · omega
        · simp at h
      · subst h; simp [compRefs] at hq
      · have := ih _ (k + 1) c h q hq
        rw [construct_vanilla_layer_next] at this
        omega
    | linear iF oF wr br =>
      simp only [sampleSeqR, List.mem_cons] at hc
      rcases hc with h | h
      · subst h
        simp only [deepcopyLinear, compRefs, List.mem_cons] at hq
        rcases hq with h | h | h
        · omega
        · omega
        · simp at h
      · have := ih _ k c h q hq
        rw [deepcopyLinear_next] at this
        omega
    | tanh =>
      simp only [sampleSeqR] at hc
      exact ih s k c hc q hq
    | other t =>
      simp only [sampleSeqR] at hc
      exact ih s k c hc q hq

theorem mem_refsOfSeq (q : Nat) (cs : List RComp) :
    q ∈ refsOfSeq cs ↔ ∃ c ∈ cs, q ∈ compRefs c := by
  induction cs with
  | nil => simp [refsOfSeq]
  | cons c rest ih =>
    simp only [refsOfSeq, List.foldr_cons, List.mem_append, List.mem_cons]
    rw [show (List.foldr (fun c acc => compRefs c ++ acc) [] rest) = refsOfSeq rest from rfl, ih]
    constructor
    · rintro (h | ⟨c', hc', hq⟩)
      · exact ⟨c, Or.inl rfl, h⟩
      · exact ⟨c', Or.inr hc', hq⟩
    · rintro ⟨c', h | h, hq⟩
      · subst h; exact Or.inl hq
      · exact Or.inr ⟨c', h, hq⟩

theorem sample_vanilla_agent_refs_ge (A : AgentR) (draws inits : Nat → Mat × Vec)
    (s : AllocState) :
    ∀ q ∈ agentRefs (sample_vanilla_agent A draws inits s).1, s.next ≤ q := by
  intro q hq
  have mono1 := sampleSeqR_next_mono draws inits A.actor_mean s 0
  simp only [sample_vanilla_agent, agentRefs, List.mem_append, List.mem_cons,
    List.mem_singleton, mem_refsOfSeq] at hq
  rcases hq with (⟨c, hc, hqc⟩ | ⟨c, hc, hqc⟩) | h
  · exact sampleSeqR_refs_ge draws inits A.actor_mean s 0 c hc q hqc
  · have := sampleSeqR_refs_ge draws inits A.critic _ _ c hc q hqc
    omega
  · rcases h with h | h
    · subst h
      have mono2 := sampleSeqR_next_mono draws inits A.critic
        (sampleSeqR draws inits A.actor_mean s 0).2.1 (sampleSeqR draws inits A.actor_mean s 0).2.2
      omega
    · simp at h

/-! Evaluation reads the store only at a network's own references. -/

theorem evalCompR_congr (σ σ' : Store) (c : RComp)
    (h : ∀ q ∈ compRefs c, σ' q = σ q) :
    ∀ x, evalCompR σ' c x = evalCompR σ c x := by
  intro x
  cases c with
  | linear iF oF wr br =>
    simp only [evalCompR]
    rw [readMat_eq_of σ' σ wr (h wr (by simp [compRefs])),
      readVec_eq_of σ' σ br (h br (by simp [compRefs]))]
  | tanh => rfl
  | bayesLinear iF oF ni no wm ws bm bs => rfl
  | other t => rfl

theorem seqApplyR_congr (σ σ' : Store) (cs : List RComp)
    (h : ∀ c ∈ cs, ∀ q ∈ compRefs c, σ' q = σ q) :
    ∀ x, seqApplyR σ' cs x = seqApplyR σ cs x := by
  induction cs with
  | nil => intro x; rfl
  | cons c rest ih =>
    intro x
    have hc : seqApplyR σ' (c :: rest) x = seqApplyR σ' rest (evalCompR σ' c x) := rfl
    have hc' : seqApplyR σ (c :: rest) x = seqApplyR σ rest (evalCompR σ c x) := rfl
    rw [hc, hc', evalCompR_congr σ σ' c (h c (List.mem_cons_self c rest)) x]
    exact ih (fun c' hc' q hq => h c' (List.mem_cons_of_mem _ hc') q hq) _

theorem get_value_congr (σ σ' : Store) (A : AgentR) (xs : List Vec)
    (h : ∀ q ∈ agentRefs A, σ' q = σ q) :
    get_value σ' A xs = get_value σ A xs := by
  have hcrit : seqApplyR σ' A.critic = seqApplyR σ A.critic := by
    refine funext (seqApplyR_congr σ σ' A.critic ?_)
    intro c hc q hq
    exact h q (by simp only [agentRefs, List.mem_append]; exact Or.inl (Or.inr ((mem_refsOfSeq q A.critic).2 ⟨c, hc, hq⟩)))
  simp only [get_value, hcrit]

theorem get_action_and_value_congr (σ σ' : Store) (A : AgentR) (xs : List Vec)
    (act : Option (List Vec)) (noise : List Vec)
    (h : ∀ q ∈ agentRefs A, σ' q = σ q) :
    get_action_and_value σ' A xs act noise = get_action_and_value σ A xs act noise := by
  have hcrit : seqApplyR σ' A.critic = seqApplyR σ A.critic := by
    refine funext (seqApplyR_congr σ σ' A.critic ?_)
    intro c hc q hq
    exact h q (by simp only [agentRefs, List.mem_append]; exact Or.inl (Or.inr ((mem_refsOfSeq q A.critic).2 ⟨c, hc, hq⟩)))
  have hm : seqApplyR σ' A.actor_mean = seqApplyR σ A.actor_mean := by
    refine funext (seqApplyR_congr σ σ' A.actor_mean ?_)
    intro c hc q hq
    exact h q (by simp only [agentRefs, List.mem_append]; exact Or.inl (Or.inl ((mem_refsOfSeq q A.actor_mean).2 ⟨c, hc, hq⟩)))
  have hl : readVec σ' A.actor_logstd = readVec σ A.actor_logstd :=
    readVec_eq_of σ' σ A.actor_logstd (h A.actor_logstd (by simp [agentRefs]))
  simp only [get_action_and_value, actorMeanBatch, policy_action_std, expand_as, hcrit, hm, hl]

/-- C1: snapshot isolation of sampling.  For every Bayesian agent whose
parameter cells all lie below the allocation frontier, mutating any one of
those cells (layer distribution parameters or `actor_logstd`) after
`sample_vanilla_agent` leaves the previously produced sampled agent's
`get_value` and `get_action_and_value` outputs unchanged for every fixed
input: the sampled agent holds freshly allocated copies, sharing no mutable
cell with the source agent. -/
theorem C1_snapshot_isolation (A : AgentR) (draws inits : Nat → Mat × Vec) (s : AllocState)
    (r : Nat) (c : Cell) (xs noise : List Vec) (act : Option (List Vec))
    (hbelow : ∀ q ∈ agentRefs A, q < s.next) (hr : r ∈ agentRefs A) :
    get_action_and_value (setCell (sample_vanilla_agent A draws inits s).2.heap r c)
        (sample_vanilla_agent A draws inits s).1 xs act noise
      = get_action_and_value (sample_vanilla_agent A draws inits s).2.heap
        (sample_vanilla_agent A draws inits s).1 xs act noise
    ∧ get_value (setCell (sample_vanilla_agent A draws inits s).2.heap r c)
        (sample_vanilla_agent A draws inits s).1 xs
      = get_value (sample_vanilla_agent A draws inits s).2.heap
        (sample_vanilla_agent A draws inits s).1 xs := by
  have hrlt : r < s.next := hbelow r hr
  have hagree : ∀ q ∈ agentRefs (sample_vanilla_agent A draws inits s).1,
      setCell (sample_vanilla_agent A draws inits s).2.heap r c q
        = (sample_vanilla_agent A draws inits s).2.heap q := by
    intro q hq
    have hge := sample_vanilla_agent_refs_ge A draws inits s q hq
    exact setCell_ne _ _ _ _ (by omega)
  exact ⟨get_action_and_value_congr _ _ _ _ _ _ hagree, get_value_congr _ _ _ _ hagree⟩

theorem C1_snapshot_isolation_witness :
    (∀ q ∈ agentRefs (⟨[RComp.linear 1 1 0 1], [RComp.linear 1 1 2 3], 4⟩ : AgentR),
      q < (5 : Nat)) ∧
    ((4 : Nat) ∈ agentRefs (⟨[RComp.linear 1 1 0 1], [RComp.linear 1 1 2 3], 4⟩ : AgentR)) ∧
    get_value
        (setCell (sample_vanilla_agent ⟨[RComp.linear 1 1 0 1], [RComp.linear 1 1 2 3], 4⟩
            (fun _ => ([], [])) (fun _ => ([], [])) ⟨fun _ => Cell.vec [], 5⟩).2.heap
          4 (Cell.vec [(1 : ℝ)]))
        (sample_vanilla_agent ⟨[RComp.linear 1 1 0 1], [RComp.linear 1 1 2 3], 4⟩
          (fun _ => ([], [])) (fun _ => ([], [])) ⟨fun _ => Cell.vec [], 5⟩).1 [[(0 : ℝ)]]
      = get_value
        (sample_vanilla_agent ⟨[RComp.linear 1 1 0 1], [RComp.linear 1 1 2 3], 4⟩
          (fun _ => ([], [])) (fun _ => ([], [])) ⟨fun _ => Cell.vec [], 5⟩).2.heap
        (sample_vanilla_agent ⟨[RComp.linear 1 1 0 1], [RComp.linear 1 1 2 3], 4⟩
          (fun _ => ([], [])) (fun _ => ([], [])) ⟨fun _ => Cell.vec [], 5⟩).1 [[(0 : ℝ)]] :=
  ⟨by decide, by decide,
    (C1_snapshot_isolation ⟨[RComp.linear 1 1 0 1], [RComp.linear 1 1 2 3], 4⟩
      (fun _ => ([], [])) (fun _ => ([], [])) ⟨fun _ => Cell.vec [], 5⟩
      4 (Cell.vec [(1 : ℝ)]) [[(0 : ℝ)]] [[(0 : ℝ)]] none (by decide) (by decide)).2⟩

/-- C7: for every observation batch and every action argument (supplied or
absent), the fourth value returned by `get_action_and_value` equals the critic
network's output for that same observation batch, i.e. it equals `get_value`,
which is a pure function of the store and the agent's parameters. -/
theorem C7_fourth_component_is_get_value (σ : Store) (A : AgentR) (xs noise : List Vec)
    (act : Option (List Vec)) :
    (get_action_and_value σ A xs act noise).2.2.2 = get_value σ A xs := rfl

/-- C5: for every value of `number_of_cell_types` (and every observation and
action dimension and every choice of parameter cells), the final component of
both the `BayesianAgent` critic sequence and its actor-mean sequence is an
ordinary deterministic linear layer (`256 → 1`, resp. `256 → actDim`), never a
Bayesian layer. -/
theorem C5_output_layers_never_bayesian (obsDim actDim nCellTypes : Nat) (R : ArchRefs) :
    (bayesianAgent obsDim actDim nCellTypes R).critic.getLast?
        = some (RComp.linear 256 1 R.cOutW R.cOutB)
    ∧ (bayesianAgent obsDim actDim nCellTypes R).actor_mean.getLast?
        = some (RComp.linear 256 actDim R.aOutW R.aOutB)
    ∧ (∀ c, (bayesianAgent obsDim actDim nCellTypes R).critic.getLast? = some c →
        c.isBayesLinearC = false ∧ c.isLinearC = true)
    ∧ (∀ c, (bayesianAgent obsDim actDim nCellTypes R).actor_mean.getLast? = some c →
        c.isBayesLinearC = false ∧ c.isLinearC = true) := by
  refine ⟨rfl, rfl, ?_, ?_⟩ <;> intro c hc <;> obtain rfl := Option.some.inj hc.symm <;>
    exact ⟨rfl, rfl⟩

/-- C6: a component of a Bayesian agent's sequence whose kind is neither a
Bayesian linear layer nor a plain linear layer contributes nothing to the new
network built by the `sample_vanilla_agent` loop: the loop's result on the
sequence starting with it (output components, store and draw counter) is
exactly its result on the remaining sequence, with no error raised. -/
theorem C6_unrecognized_components_silently_dropped (c0 : RComp)
    (hb : c0.isBayesLinearC = false) (hl : c0.isLinearC = false)
    (draws inits : Nat → Mat × Vec) (rest : List RComp) (s : AllocState) (k : Nat) :
    sampleSeqR draws inits (c0 :: rest) s k = sampleSeqR draws inits rest s k := by
  cases c0 with
  | bayesLinear iF oF ni no wm ws bm bs => simp [RComp.isBayesLinearC] at hb
  | linear iF oF wr br => simp [RComp.isLinearC] at hl
  | tanh => rfl
  | other t => rfl

theorem C6_unrecognized_components_silently_dropped_witness :
    (RComp.other 7).isBayesLinearC = false ∧ (RComp.other 7).isLinearC = false ∧
    sampleSeqR (fun _ => ([], [])) (fun _ => ([], []))
        [RComp.other 7] ⟨fun _ => Cell.vec [], 0⟩ 0
      = sampleSeqR (fun _ => ([], [])) (fun _ => ([], [])) [] ⟨fun _ => Cell.vec [], 0⟩ 0 :=
  ⟨rfl, rfl,
    C6_unrecognized_components_silently_dropped (RComp.other 7) rfl rfl
      (fun _ => ([], [])) (fun _ => ([], [])) [] ⟨fun _ => Cell.vec [], 0⟩ 0⟩

/-- C9: when the environment's action space is not a box, the agent setup
fails immediately with the assertion message and nothing is constructed; when
it is a box, the assertion passes and the Bayesian agent is built. -/
theorem C9_action_space_assertion (obsSpace actSpace : GymSpace) (nCellTypes : Nat)
    (R : ArchRefs) :
    (actSpace.isBox = true →
      make_agent_setup obsSpace actSpace nCellTypes R
        = Except.ok (bayesianAgent obsSpace.shapeProd actSpace.shapeProd nCellTypes R))
    ∧ (actSpace.isBox = false →
      make_agent_setup obsSpace actSpace nCellTypes R
        = Except.error "only continuous action space is supported") := by
  constructor <;> intro h <;> simp [make_agent_setup, h]

theorem C9_action_space_assertion_witness :
    (GymSpace.discrete 3).isBox = false ∧
    make_agent_setup (GymSpace.box [48]) (GymSpace.discrete 3) 256
        ⟨0, 1, 2, 3, 4, 5, 6, 7, 8, 9, 10, 11, 12, 13, 14, 15, 16, 17, 18, 19, 20⟩
      = Except.error "only continuous action space is supported" ∧
    (GymSpace.box [12]).isBox = true ∧
    make_agent_setup (GymSpace.box [48]) (GymSpace.box [12]) 256
        ⟨0, 1, 2, 3, 4, 5, 6, 7, 8, 9, 10, 11, 12, 13, 14, 15, 16, 17, 18, 19, 20⟩
      = Except.ok (bayesianAgent 48 12 256
        ⟨0, 1, 2, 3, 4, 5, 6, 7, 8, 9, 10, 11, 12, 13, 14, 15, 16, 17, 18, 19, 20⟩) :=
  ⟨rfl,
    (C9_action_space_assertion (GymSpace.box [48]) (GymSpace.discrete 3) 256
      ⟨0, 1, 2, 3, 4, 5, 6, 7, 8, 9, 10, 11, 12, 13, 14, 15, 16, 17, 18, 19, 20⟩).2 rfl,
    rfl,
    (C9_action_space_assertion (GymSpace.box [48]) (GymSpace.box [12]) 256
      ⟨0, 1, 2, 3, 4, 5, 6, 7, 8, 9, 10, 11, 12, 13, 14, 15, 16, 17, 18, 19, 20⟩).1 rfl⟩

/-- C3: `construct_vanilla_layer` assigns the drawn weight matrix and bias
vector exactly (overwriting whatever values the library initialization put in
the fresh cells), takes the declared in/out features from the sampled weight's
column and row counts respectively, and the built layer consequently computes
exactly the linear map of the drawn values. -/
theorem C3_construct_vanilla_layer_exact (s : AllocState) (init : Mat × Vec)
    (weights : Mat) (biases : Vec) (x : Vec) :
    (construct_vanilla_layer s init weights biases).2
        = RComp.linear (matCols weights) (matRows weights) s.next (s.next + 1)
    ∧ readMat (construct_vanilla_layer s init weights biases).1.heap s.next = weights
    ∧ readVec (construct_vanilla_layer s init weights biases).1.heap (s.next + 1) = biases
    ∧ evalCompR (construct_vanilla_layer s init weights biases).1.heap
        (construct_vanilla_layer s init weights biases).2 x
      = linearApply weights biases x := by
  have hm : readMat (construct_vanilla_layer s init weights biases).1.heap s.next = weights := by
    show readMat (setCell (setCell _ s.next (Cell.mat weights)) (s.next + 1) (Cell.vec biases))
      s.next = weights
    rw [readMat_eq_of _ _ _ (setCell_ne _ _ _ _ (by omega)), readMat_setCell_self]
  have hv : readVec (construct_vanilla_layer s init weights biases).1.heap (s.next + 1)
      = biases := by
    show readVec (setCell (setCell _ s.next (Cell.mat weights)) (s.next + 1) (Cell.vec biases))
      (s.next + 1) = biases
    rw [readVec_setCell_self]
  refine ⟨rfl, hm, hv, ?_⟩
  show linearApply (readMat (construct_vanilla_layer s init weights biases).1.heap s.next)
    (readVec (construct_vanilla_layer s init weights biases).1.heap (s.next + 1)) x
    = linearApply weights biases x
  rw [hm, hv]

/-! List-indexing lemmas used to relate the tensor operations to per-dimension
sums. -/

theorem getD_mem (l : List α) : ∀ i, i < l.length → ∀ d, l.getD i d ∈ l := by
  induction l with
  | nil => intro i h; simp at h
  | cons a t ih =>
    intro i h d
    cases i with
    | zero => simp [List.getD_cons_zero]
    | succ j =>
      rw [List.getD_cons_succ]
      exact List.mem_cons_of_mem a (ih j (by simpa using h) d)

theorem getD_map (f : α → β) (l : List α) :
    ∀ i, i < l.length → ∀ (d : β) (d' : α), (l.map f).getD i d = f (l.getD i d') := by
  induction l with
  | nil => intro i h; simp at h
  | cons a t ih =>
    intro i h d d'
    cases i with
    | zero => simp [List.getD_cons_zero]
    | succ j => simpa [List.getD_cons_succ] using ih j (by simpa using h) d d'

theorem length_zipWith3 (f : α → β → γ → δ) :
    ∀ (u : List α) (v : List β) (w : List γ),
      (zipWith3 f u v w).length = min u.length (min v.length w.length) := by
  intro u
  induction u with
  | nil => intro v w; simp [zipWith3]
  | cons a as ih =>
    intro v w
    cases v with
    | nil => simp [zipWith3]
    | cons b bs =>
      cases w with
      | nil => simp [zipWith3]
      | cons c cs =>
        simp only [zipWith3, List.length_cons, ih]
        omega

theorem getD_zipWith3 (f : α → β → γ → δ) :
    ∀ (u : List α) (v : List β) (w : List γ) (i : Nat),
      i < u.length → i < v.length → i < w.length →
      ∀ (d : δ) (du : α) (dv : β) (dw : γ),
        (zipWith3 f u v w).getD i d = f (u.getD i du) (v.getD i dv) (w.getD i dw) := by
  intro u
  induction u with
  | nil => intro v w i h; simp at h
  | cons a as ih =>
    intro v w i hu hv hw d du dv dw
    cases v with
    | nil => simp at hv
    | cons b bs =>
      cases w with
      | nil => simp at hw
      | cons c cs =>
        cases i with
        | zero => simp [zipWith3, List.getD_cons_zero]
        | succ j =>
          simp only [zipWith3, List.getD_cons_succ]
          exact ih bs cs j (by simpa using hu) (by simpa using hv) (by simpa using hw) d du dv dw

theorem sum_zipWith3 (f : ℝ → ℝ → ℝ → ℝ) :
    ∀ (D : Nat) (u v w : List ℝ), u.length = D → v.length = D → w.length = D →
      (zipWith3 f u v w).sum
        = ∑ d ∈ Finset.range D, f (u.getD d 0) (v.getD d 0) (w.getD d 0) := by
  intro D
  induction D with
  | zero =>
    intro u v w hu hv hw
    rw [List.length_eq_zero] at hu
    subst hu
    simp [zipWith3]
  | succ D ih =>
    intro u v w hu hv hw
    cases u with
    | nil => simp at hu
    | cons a as =>
      cases v with
      | nil => simp at hv
      | cons b bs =>
        cases w with
        | nil => simp at hw
        | cons c cs =>
          rw [Finset.sum_range_succ']
          simp only [zipWith3, List.sum_cons, List.getD_cons_succ, List.getD_cons_zero]
          rw [ih as bs cs (by simpa using hu) (by simpa using hv) (by simpa using hw)]
          exact add_comm _ _

theorem sum_map_getD (g : ℝ → ℝ) :
    ∀ (D : Nat) (u : List ℝ), u.length = D →
      (u.map g).sum = ∑ d ∈ Finset.range D, g (u.getD d 0) := by
  intro D
  induction D with
  | zero =>
    intro u hu
    rw [List.length_eq_zero] at hu
    subst hu
    simp
  | succ D ih =>
    intro u hu
    cases u with
    | nil => simp at hu
    | cons a as =>
      rw [Finset.sum_range_succ']
      simp only [List.map_cons, List.sum_cons, List.getD_cons_succ, List.getD_cons_zero]
      rw [ih as (by simpa using hu)]
      exact add_comm _ _

theorem map_const_replicate (l : List α) (b : β) :
    l.map (fun _ => b) = List.replicate l.length b := by
  induction l with
  | nil => rfl
  | cons a t ih => simp only [List.map_cons, List.length_cons, List.replicate_succ, ih]

theorem getD_replicate : ∀ (n i : Nat), i < n → ∀ (a d : α), (List.replicate n a).getD i d = a := by
  intro n
  induction n with
  | zero => intro i h; omega
  | succ m ih =>
    intro i h a d
    cases i with
    | zero => simp [List.replicate_succ, List.getD_cons_zero]
    | succ j =>
      rw [List.replicate_succ, List.getD_cons_succ]
      exact ih j (by omega) a d

/-! The broadcast standard deviation of the policy Gaussian. -/

theorem policy_action_std_eq (σ : Store) (A : AgentR) (xs : List Vec) :
    policy_action_std σ A xs
      = List.replicate xs.length ((readVec σ A.actor_logstd).map Real.exp) := by
  unfold policy_action_std expand_as actorMeanBatch
  rw [List.map_map, List.map_map]
  exact map_const_replicate xs ((readVec σ A.actor_logstd).map Real.exp)

theorem policy_action_std_length (σ : Store) (A : AgentR) (xs : List Vec) :
    (policy_action_std σ A xs).length = xs.length := by
  rw [policy_action_std_eq]
  exact List.length_replicate _ _

theorem policy_action_std_getD (σ : Store) (A : AgentR) (xs : List Vec) (b : Nat)
    (hb : b < xs.length) :
    (policy_action_std σ A xs).getD b [] = (readVec σ A.actor_logstd).map Real.exp := by
  rw [policy_action_std_eq]
  exact getD_replicate _ _ hb _ _

theorem actorMeanBatch_length (σ : Store) (A : AgentR) (xs : List Vec) :
    (actorMeanBatch σ A xs).length = xs.length := List.length_map _ _

theorem actorMeanBatch_getD (σ : Store) (A : AgentR) (xs : List Vec) (b : Nat)
    (hb : b < xs.length) :
    (actorMeanBatch σ A xs).getD b [] = seqApplyR σ A.actor_mean (xs.getD b []) :=
  getD_map _ xs b hb [] []

/-! Definitional projections of `get_action_and_value`. -/

theorem gaav_logprob_eq (σ : Store) (A : AgentR) (xs noise : List Vec)
    (act : Option (List Vec)) :
    (get_action_and_value σ A xs act noise).2.1
      = zipWith3 rowLogProb (actorMeanBatch σ A xs) (policy_action_std σ A xs)
        (get_action_and_value σ A xs act noise).1 := rfl

theorem gaav_entropy_eq (σ : Store) (A : AgentR) (xs noise : List Vec)
    (act : Option (List Vec)) :
    (get_action_and_value σ A xs act noise).2.2.1
      = (policy_action_std σ A xs).map rowEntropy := rfl

theorem gaav_action_none_eq (σ : Store) (A : AgentR) (xs noise : List Vec) :
    (get_action_and_value σ A xs none noise).1
      = zipWith3 (fun μrow srow εrow => zipWith3 (fun μ s e => μ + s * e) μrow srow εrow)
        (actorMeanBatch σ A xs) (policy_action_std σ A xs) noise := rfl

/-- C8: the per-dimension standard deviation used to build the policy Gaussian
in `get_action_and_value` is state-independent and shared across the batch:
every batch element's standard-deviation row equals
`exp` applied to `actor_logstd` entrywise, and the whole broadcast
standard-deviation matrix does not depend on the observation contents — any
two observation batches of the same size yield the same matrix. -/
theorem C8_state_independent_std (σ : Store) (A : AgentR) (xs xs' : List Vec) (b : Nat)
    (hb : b < xs.length) (hlen : xs'.length = xs.length) :
    (policy_action_std σ A xs).getD b [] = (readVec σ A.actor_logstd).map Real.exp
    ∧ policy_action_std σ A xs' = policy_action_std σ A xs := by
  refine ⟨policy_action_std_getD σ A xs b hb, ?_⟩
  rw [policy_action_std_eq, policy_action_std_eq, hlen]

theorem C8_state_independent_std_witness :
    (0 < wObs48.length ∧ wAction12.length = wObs48.length)
    ∧ ((policy_action_std wStore48 wAgent48 wObs48).getD 0 []
        = (readVec wStore48 wAgent48.actor_logstd).map Real.exp
      ∧ policy_action_std wStore48 wAgent48 wAction12
        = policy_action_std wStore48 wAgent48 wObs48) :=
  ⟨⟨by decide, by decide⟩,
    C8_state_independent_std wStore48 wAgent48 wObs48 wAction12 0 (by decide) (by decide)⟩

/-- C10: when an explicit action argument is supplied to
`get_action_and_value`, the first returned value is exactly that action,
unchanged; the output does not depend on the Gaussian sampling noise at all
(no sample is drawn); and the log-probability is computed for the supplied
action under the Gaussian built from the current parameters, summed over the
action dimensions. -/
theorem C10_supplied_action_passthrough (σ : Store) (A : AgentR)
    (xs a noise noise2 : List Vec) (D : Nat)
    (hmean : ∀ v ∈ xs, (seqApplyR σ A.actor_mean v).length = D)
    (hlog : (readVec σ A.actor_logstd).length = D)
    (ha : a.length = xs.length)
    (haD : ∀ v ∈ a, v.length = D) :
    (get_action_and_value σ A xs (some a) noise).1 = a
    ∧ get_action_and_value σ A xs (some a) noise = get_action_and_value σ A xs (some a) noise2
    ∧ ∀ b, b < xs.length →
        (get_action_and_value σ A xs (some a) noise).2.1.getD b 0
          = ∑ d ∈ Finset.range D,
              normalLogPdf (((actorMeanBatch σ A xs).getD b []).getD d 0)
                (Real.exp ((readVec σ A.actor_logstd).getD d 0))
                ((a.getD b []).getD d 0) := by
  refine ⟨rfl, rfl, ?_⟩
  intro b hb
  rw [gaav_logprob_eq]
  rw [show (get_action_and_value σ A xs (some a) noise).1 = a from rfl]
  rw [getD_zipWith3 rowLogProb _ _ _ b (by rw [actorMeanBatch_length]; exact hb)
    (by rw [policy_action_std_length]; exact hb) (by rw [ha]; exact hb) 0 [] [] []]
  rw [policy_action_std_getD σ A xs b hb]
  unfold rowLogProb
  rw [sum_zipWith3 normalLogPdf D _ _ _
    (by rw [actorMeanBatch_getD σ A xs b hb]; exact hmean _ (getD_mem xs b hb []))
    (by rw [List.length_map]; exact hlog)
    (haD _ (getD_mem a b (by rw [ha]; exact hb) []))]
  refine Finset.sum_congr rfl ?_
  intro d hd
  rw [getD_map Real.exp (readVec σ A.actor_logstd) d
    (by rw [hlog]; exact Finset.mem_range.1 hd) 0 0]

theorem C10_supplied_action_passthrough_witness :
    ((∀ v ∈ wObs48, (seqApplyR wStore48 wAgent48.actor_mean v).length = 12)
      ∧ (readVec wStore48 wAgent48.actor_logstd).length = 12
      ∧ wAction12.length = wObs48.length
      ∧ (∀ v ∈ wAction12, v.length = 12))
    ∧ (get_action_and_value wStore48 wAgent48 wObs48 (some wAction12) wNoise12).1 = wAction12
    ∧ get_action_and_value wStore48 wAgent48 wObs48 (some wAction12) wNoise12
      = get_action_and_value wStore48 wAgent48 wObs48 (some wAction12) wObs48 := by
  have h := C10_supplied_action_passthrough wStore48 wAgent48 wObs48 wAction12 wNoise12 wObs48
    12 (by decide) (by decide) (by decide) (by decide)
  exact ⟨⟨by decide, by decide, by decide, by decide⟩, h.1, h.2.1⟩

/-- C4: for every observation batch of `B` rows and action dimensionality `D`
(actor-mean rows of length `D`, `actor_logstd` of length `D`, critic rows of
length 1) and `action=None`, `get_action_and_value` returns an action of shape
(B, D), log-probability and entropy tensors of shape (B,) — each entry equal
to the sum over the `D` per-dimension Gaussian log-densities/entropies, batch
axis preserved — and a value of shape (B, 1).  The witness instantiates the
spec's example: an observation batch of shape (2, 48) with action
dimensionality 12. -/
theorem C4_logprob_entropy_reduction (σ : Store) (A : AgentR) (xs noise : List Vec)
    (B D : Nat)
    (hB : xs.length = B)
    (hmean : ∀ v ∈ xs, (seqApplyR σ A.actor_mean v).length = D)
    (hlog : (readVec σ A.actor_logstd).length = D)
    (hcrit : ∀ v ∈ xs, (seqApplyR σ A.critic v).length = 1)
    (hnB : noise.length = B)
    (hnD : ∀ v ∈ noise, v.length = D) :
    (get_action_and_value σ A xs none noise).1.length = B
    ∧ (∀ b, b < B → ((get_action_and_value σ A xs none noise).1.getD b []).length = D)
    ∧ (get_action_and_value σ A xs none noise).2.1.length = B
    ∧ (get_action_and_value σ A xs none noise).2.2.1.length = B
    ∧ (get_action_and_value σ A xs none noise).2.2.2.length = B
    ∧ (∀ b, b < B → ((get_action_and_value σ A xs none noise).2.2.2.getD b []).length = 1)
    ∧ (∀ b, b < B →
        (get_action_and_value σ A xs none noise).2.1.getD b 0
          = ∑ d ∈ Finset.range D,
              normalLogPdf (((actorMeanBatch σ A xs).getD b []).getD d 0)
                (Real.exp ((readVec σ A.actor_logstd).getD d 0))
                (((get_action_and_value σ A xs none noise).1.getD b []).getD d 0))
    ∧ (∀ b, b < B →
        (get_action_and_value σ A xs none noise).2.2.1.getD b 0
          = ∑ d ∈ Finset.range D, normalEntropy (Real.exp ((readVec σ A.actor_logstd).getD d 0))) := by
  have hmlen : (actorMeanBatch σ A xs).length = B := by rw [actorMeanBatch_length, hB]
  have hslen : (policy_action_std σ A xs).length = B := by rw [policy_action_std_length, hB]
  have hactlen : (get_action_and_value σ A xs none noise).1.length = B := by
    rw [gaav_action_none_eq, length_zipWith3, hmlen, hslen, hnB]
    omega
  have hactrow : ∀ b, b < B → ((get_action_and_value σ A xs none noise).1.getD b []).length = D := by
    intro b hb
    rw [gaav_action_none_eq,
      getD_zipWith3 _ _ _ _ b (by rw [hmlen]; exact hb) (by rw [hslen]; exact hb)
        (by rw [hnB]; exact hb) [] [] [] [],
      length_zipWith3]
    have h1 : ((actorMeanBatch σ A xs).getD b []).length = D := by
      rw [actorMeanBatch_getD σ A xs b (by rw [hB]; exact hb)]
      exact hmean _ (getD_mem xs b (by rw [hB]; exact hb) [])
    have h2 : ((policy_action_std σ A xs).getD b []).length = D := by
      rw [policy_action_std_getD σ A xs b (by rw [hB]; exact hb), List.length_map]
      exact hlog
    have h3 : (noise.getD b []).length = D := hnD _ (getD_mem noise b (by rw [hnB]; exact hb) [])
    rw [h1, h2, h3]
    omega
  refine ⟨hactlen, hactrow, ?_, ?_, ?_, ?_, ?_, ?_⟩
  · rw [gaav_logprob_eq, length_zipWith3, hmlen, hslen, hactlen]
    omega
  · rw [gaav_entropy_eq, List.length_map, hslen]
  · show (xs.map (seqApplyR σ A.critic)).length = B
    rw [List.length_map, hB]
  · intro b hb
    show ((xs.map (seqApplyR σ A.critic)).getD b []).length = 1
    rw [getD_map _ xs b (by rw [hB]; exact hb) [] []]
    exact hcrit _ (getD_mem xs b (by rw [hB]; exact hb) [])
  · intro b hb
    rw [gaav_logprob_eq,
      getD_zipWith3 rowLogProb _ _ _ b (by rw [hmlen]; exact hb) (by rw [hslen]; exact hb)
        (by rw [hactlen]; exact hb) 0 [] [] [],
      policy_action_std_getD σ A xs b (by rw [hB]; exact hb)]
    unfold rowLogProb
    rw [sum_zipWith3 normalLogPdf D _ _ _
      (by rw [actorMeanBatch_getD σ A xs b (by rw [hB]; exact hb)]
          exact hmean _ (getD_mem xs b (by rw [hB]; exact hb) []))
      (by rw [List.length_map]; exact hlog)
      (hactrow b hb)]
    refine Finset.sum_congr rfl ?_
    intro d hd
    rw [getD_map Real.exp (readVec σ A.actor_logstd) d
      (by rw [hlog]; exact Finset.mem_range.1 hd) 0 0]
  · intro b hb
    rw [gaav_entropy_eq,
      getD_map rowEntropy (policy_action_std σ A xs) b (by rw [hslen]; exact hb) 0 [],
      policy_action_std_getD σ A xs b (by rw [hB]; exact hb)]
    unfold rowEntropy
    rw [sum_map_getD normalEntropy D _ (by rw [List.length_map]; exact hlog)]
    refine Finset.sum_congr rfl ?_
    intro d hd
    rw [getD_map Real.exp (readVec σ A.actor_logstd) d
      (by rw [hlog]; exact Finset.mem_range.1 hd) 0 0]

theorem C4_logprob_entropy_reduction_witness :
    (wObs48.length = 2
      ∧ (∀ v ∈ wObs48, (seqApplyR wStore48 wAgent48.actor_mean v).length = 12)
      ∧ (readVec wStore48 wAgent48.actor_logstd).length = 12
      ∧ (∀ v ∈ wObs48, (seqApplyR wStore48 wAgent48.critic v).length = 1)
      ∧ wNoise12.length = 2
      ∧ (∀ v ∈ wNoise12, v.length = 12))
    ∧ (get_action_and_value wStore48 wAgent48 wObs48 none wNoise12).1.length = 2
    ∧ (∀ b, b < 2 →
        ((get_action_and_value wStore48 wAgent48 wObs48 none wNoise12).1.getD b []).length = 12)
    ∧ (get_action_and_value wStore48 wAgent48 wObs48 none wNoise12).2.1.length = 2
    ∧ (get_action_and_value wStore48 wAgent48 wObs48 none wNoise12).2.2.1.length = 2
    ∧ (get_action_and_value wStore48 wAgent48 wObs48 none wNoise12).2.2.2.length = 2
    ∧ (∀ b, b < 2 →
        ((get_action_and_value wStore48 wAgent48 wObs48 none wNoise12).2.2.2.getD b []).length
          = 1) := by
  have h := C4_logprob_entropy_reduction wStore48 wAgent48 wObs48 wNoise12 2 12
    (by decide) (by decide) (by decide) (by decide) (by decide) (by decide)
  exact ⟨⟨by decide, by decide, by decide, by decide, by decide, by decide⟩,
    h.1, h.2.1, h.2.2.1, h.2.2.2.1, h.2.2.2.2.1, h.2.2.2.2.2.1⟩

/-! Structure of the sampling loop on the concrete five-component architecture
of `BayesianAgent.__init__`. -/

theorem deepcopyLinear_reads (s : AllocState) (i o wr br : Nat) :
    readMat (deepcopyLinear s i o wr br).1.heap s.next = readMat s.heap wr
    ∧ readVec (deepcopyLinear s i o wr br).1.heap (s.next + 1) = readVec s.heap br := by
  constructor
  · show readMat (setCell (setCell s.heap s.next (Cell.mat (readMat s.heap wr))) (s.next + 1)
      (Cell.vec (readVec s.heap br))) s.next = readMat s.heap wr
    rw [readMat_eq_of _ _ _ (setCell_ne _ _ _ _ (by omega)), readMat_setCell_self]
  · show readVec (setCell (setCell s.heap s.next (Cell.mat (readMat s.heap wr))) (s.next + 1)
      (Cell.vec (readVec s.heap br))) (s.next + 1) = readVec s.heap br
    rw [readVec_setCell_self]

theorem sampleSeqR_arch (draws inits : Nat → Mat × Vec) (d1 n1 n2 : Nat)
    (r1 r2 r3 r4 r5 r6 r7 r8 oi oo ow ob : Nat) (s : AllocState) (k : Nat)
    (how : ow < s.next) (hob : ob < s.next) :
    (sampleSeqR draws inits
        [RComp.bayesLinear d1 256 n1 n2 r1 r2 r3 r4, RComp.tanh,
         RComp.bayesLinear 256 256 n1 n2 r5 r6 r7 r8, RComp.tanh,
         RComp.linear oi oo ow ob] s k).1.length = 5
    ∧ (sampleSeqR draws inits
        [RComp.bayesLinear d1 256 n1 n2 r1 r2 r3 r4, RComp.tanh,
         RComp.bayesLinear 256 256 n1 n2 r5 r6 r7 r8, RComp.tanh,
         RComp.linear oi oo ow ob] s k).1.getD 1 (RComp.other 0) = RComp.tanh
    ∧ (sampleSeqR draws inits
        [RComp.bayesLinear d1 256 n1 n2 r1 r2 r3 r4, RComp.tanh,
         RComp.bayesLinear 256 256 n1 n2 r5 r6 r7 r8, RComp.tanh,
         RComp.linear oi oo ow ob] s k).1.getD 3 (RComp.other 0) = RComp.tanh
    ∧ (sampleSeqR draws inits
        [RComp.bayesLinear d1 256 n1 n2 r1 r2 r3 r4, RComp.tanh,
         RComp.bayesLinear 256 256 n1 n2 r5 r6 r7 r8, RComp.tanh,
         RComp.linear oi oo ow ob] s k).1.getD 4 (RComp.other 0)
      = RComp.linear oi oo (s.next + 4) (s.next + 5)
    ∧ (sampleSeqR draws inits
        [RComp.bayesLinear d1 256 n1 n2 r1 r2 r3 r4, RComp.tanh,
         RComp.bayesLinear 256 256 n1 n2 r5 r6 r7 r8, RComp.tanh,
         RComp.linear oi oo ow ob] s k).2.1.next = s.next + 6
    ∧ readMat (sampleSeqR draws inits
        [RComp.bayesLinear d1 256 n1 n2 r1 r2 r3 r4, RComp.tanh,
         RComp.bayesLinear 256 256 n1 n2 r5 r6 r7 r8, RComp.tanh,
         RComp.linear oi oo ow ob] s k).2.1.heap (s.next + 4) = readMat s.heap ow
    ∧ readVec (sampleSeqR draws inits
        [RComp.bayesLinear d1 256 n1 n2 r1 r2 r3 r4, RComp.tanh,
         RComp.bayesLinear 256 256 n1 n2 r5 r6 r7 r8, RComp.tanh,
         RComp.linear oi oo ow ob] s k).2.1.heap (s.next + 5) = readVec s.heap ob := by
  have key : ∀ (p2 : AllocState), p2.next = s.next + 4 →
      (∀ q, q < s.next → p2.heap q = s.heap q) →
      readMat (deepcopyLinear p2 oi oo ow ob).1.heap (s.next + 4) = readMat s.heap ow
      ∧ readVec (deepcopyLinear p2 oi oo ow ob).1.heap (s.next + 5) = readVec s.heap ob := by
    intro p2 hn hagree
    have h1 := (deepcopyLinear_reads p2 oi oo ow ob).1
    have h2 := (deepcopyLinear_reads p2 oi oo ow ob).2
    rw [hn] at h1 h2
    constructor
    · rw [h1]
      exact readMat_eq_of _ _ _ (hagree ow how)
    · rw [show s.next + 5 = s.next + 4 + 1 from rfl, h2]
      exact readVec_eq_of _ _ _ (hagree ob hob)
  have hagree2 : ∀ q, q < s.next →
      (construct_vanilla_layer
        (construct_vanilla_layer s (inits k)
          (sampleMat (readMat s.heap r1) (readMat s.heap r2) (draws k).1)
          (sampleVec (readVec s.heap r3) (readVec s.heap r4) (draws k).2)).1
        (inits (k + 1))
        (sampleMat
          (readMat (construct_vanilla_layer s (inits k)
            (sampleMat (readMat s.heap r1) (readMat s.heap r2) (draws k).1)
            (sampleVec (readVec s.heap r3) (readVec s.heap r4) (draws k).2)).1.heap r5)
          (readMat (construct_vanilla_layer s (inits k)
            (sampleMat (readMat s.heap r1) (readMat s.heap r2) (draws k).1)
            (sampleVec (readVec s.heap r3) (readVec s.heap r4) (draws k).2)).1.heap r6)
          (draws (k + 1)).1)
        (sampleVec
          (readVec (construct_vanilla_layer s (inits k)
            (sampleMat (readMat s.heap r1) (readMat s.heap r2) (draws k).1)
            (sampleVec (readVec s.heap r3) (readVec s.heap r4) (draws k).2)).1.heap r7)
          (readVec (construct_vanilla_layer s (inits k)
            (sampleMat (readMat s.heap r1) (readMat s.heap r2) (draws k).1)
            (sampleVec (readVec s.heap r3) (readVec s.heap r4) (draws k).2)).1.heap r8)
          (draws (k + 1)).2)).1.heap q = s.heap q := by
    intro q hq
    rw [construct_vanilla_layer_heap_lt _ _ _ _ _
      (by rw [construct_vanilla_layer_next]; omega)]
    exact construct_vanilla_layer_heap_lt _ _ _ _ _ hq
  have hk := key _ (by rw [construct_vanilla_layer_next, construct_vanilla_layer_next]) hagree2
  exact ⟨rfl, rfl, rfl, rfl, rfl, hk.1, hk.2⟩

/-- C2: on the actual `BayesianAgent` architecture, every component of the
actor-mean or critic sequence that is already deterministic — the `Tanh`
nonlinearities at positions 1 and 3 and the final output linear layer at
position 4 — reappears in the sampled agent's corresponding sub-network at its
original sequence position: the `Tanh`s unchanged (they are stateless), and
the output linear layer as a deep, independent copy — same declared
dimensions, weight and bias values read back equal to the source layer's, but
stored in freshly allocated cells at or above the allocation frontier, so no
backing storage is shared with the source agent. -/
theorem C2_deterministic_components_copied (obsDim actDim nCellTypes : Nat) (R : ArchRefs)
    (draws inits : Nat → Mat × Vec) (s : AllocState)
    (hbelow : ∀ q ∈ agentRefs (bayesianAgent obsDim actDim nCellTypes R), q < s.next) :
    ((sample_vanilla_agent (bayesianAgent obsDim actDim nCellTypes R) draws inits s).1.actor_mean.length = 5
    ∧ (sample_vanilla_agent (bayesianAgent obsDim actDim nCellTypes R) draws inits s).1.actor_mean.getD 1 (RComp.other 0) = RComp.tanh
    ∧ (sample_vanilla_agent (bayesianAgent obsDim actDim nCellTypes R) draws inits s).1.actor_mean.getD 3 (RComp.other 0) = RComp.tanh
    ∧ ∃ wr br, (sample_vanilla_agent (bayesianAgent obsDim actDim nCellTypes R) draws inits s).1.actor_mean.getD 4 (RComp.other 0) = RComp.linear 256 actDim wr br
        ∧ s.next ≤ wr ∧ s.next ≤ br
        ∧ readMat (sample_vanilla_agent (bayesianAgent obsDim actDim nCellTypes R) draws inits s).2.heap wr = readMat s.heap R.aOutW
        ∧ readVec (sample_vanilla_agent (bayesianAgent obsDim actDim nCellTypes R) draws inits s).2.heap br = readVec s.heap R.aOutB)
    ∧ ((sample_vanilla_agent (bayesianAgent obsDim actDim nCellTypes R) draws inits s).1.critic.length = 5
    ∧ (sample_vanilla_agent (bayesianAgent obsDim actDim nCellTypes R) draws inits s).1.critic.getD 1 (RComp.other 0) = RComp.tanh
    ∧ (sample_vanilla_agent (bayesianAgent obsDim actDim nCellTypes R) draws inits s).1.critic.getD 3 (RComp.other 0) = RComp.tanh
    ∧ ∃ wr br, (sample_vanilla_agent (bayesianAgent obsDim actDim nCellTypes R) draws inits s).1.critic.getD 4 (RComp.other 0) = RComp.linear 256 1 wr br
        ∧ s.next ≤ wr ∧ s.next ≤ br
        ∧ readMat (sample_vanilla_agent (bayesianAgent obsDim actDim nCellTypes R) draws inits s).2.heap wr = readMat s.heap R.cOutW
        ∧ readVec (sample_vanilla_agent (bayesianAgent obsDim actDim nCellTypes R) draws inits s).2.heap br = readVec s.heap R.cOutB) := by
  have haw : R.aOutW < s.next :=
    hbelow R.aOutW (by simp [agentRefs, refsOfSeq, compRefs, bayesianAgent])
  have hab : R.aOutB < s.next :=
    hbelow R.aOutB (by simp [agentRefs, refsOfSeq, compRefs, bayesianAgent])
  have hcw : R.cOutW < s.next :=
    hbelow R.cOutW (by simp [agentRefs, refsOfSeq, compRefs, bayesianAgent])
  have hcb : R.cOutB < s.next :=
    hbelow R.cOutB (by simp [agentRefs, refsOfSeq, compRefs, bayesianAgent])
  have ham := sampleSeqR_arch draws inits obsDim nCellTypes nCellTypes
    R.aW1 R.aS1 R.aB1 R.aT1 R.aW2 R.aS2 R.aB2 R.aT2 256 actDim R.aOutW R.aOutB s 0 haw hab
  have hamnext :
      (sampleSeqR draws inits (bayesianAgent obsDim actDim nCellTypes R).actor_mean s 0).2.1.next
        = s.next + 6 := ham.2.2.2.2.1
  have hmono2 : (sampleSeqR draws inits (bayesianAgent obsDim actDim nCellTypes R).actor_mean s 0).2.1.next
      ≤ (sampleSeqR draws inits (bayesianAgent obsDim actDim nCellTypes R).critic
          (sampleSeqR draws inits (bayesianAgent obsDim actDim nCellTypes R).actor_mean s 0).2.1
          (sampleSeqR draws inits (bayesianAgent obsDim actDim nCellTypes R).actor_mean s 0).2.2).2.1.next :=
    sampleSeqR_next_mono draws inits _ _ _
  have hcr := sampleSeqR_arch draws inits obsDim nCellTypes nCellTypes
    R.cW1 R.cS1 R.cB1 R.cT1 R.cW2 R.cS2 R.cB2 R.cT2 256 1 R.cOutW R.cOutB
    (sampleSeqR draws inits (bayesianAgent obsDim actDim nCellTypes R).actor_mean s 0).2.1
    (sampleSeqR draws inits (bayesianAgent obsDim actDim nCellTypes R).actor_mean s 0).2.2
    (by omega) (by omega)
  have hcrnext6 :
      (sampleSeqR draws inits (bayesianAgent obsDim actDim nCellTypes R).critic
        (sampleSeqR draws inits (bayesianAgent obsDim actDim nCellTypes R).actor_mean s 0).2.1
        (sampleSeqR draws inits (bayesianAgent obsDim actDim nCellTypes R).actor_mean s 0).2.2).2.1.next
      = (sampleSeqR draws inits (bayesianAgent obsDim actDim nCellTypes R).actor_mean s 0).2.1.next
        + 6 := hcr.2.2.2.2.1
  have hcrnext :
      (sampleSeqR draws inits (bayesianAgent obsDim actDim nCellTypes R).critic
        (sampleSeqR draws inits (bayesianAgent obsDim actDim nCellTypes R).actor_mean s 0).2.1
        (sampleSeqR draws inits (bayesianAgent obsDim actDim nCellTypes R).actor_mean s 0).2.2).2.1.next
      = s.next + 12 := by omega
  have hcrw : readMat
      (sampleSeqR draws inits (bayesianAgent obsDim actDim nCellTypes R).critic
        (sampleSeqR draws inits (bayesianAgent obsDim actDim nCellTypes R).actor_mean s 0).2.1
        (sampleSeqR draws inits (bayesianAgent obsDim actDim nCellTypes R).actor_mean s 0).2.2).2.1.heap
      ((sampleSeqR draws inits (bayesianAgent obsDim actDim nCellTypes R).actor_mean s 0).2.1.next + 4)
    = readMat (sampleSeqR draws inits (bayesianAgent obsDim actDim nCellTypes R).actor_mean s 0).2.1.heap
      R.cOutW := hcr.2.2.2.2.2.1
  have hcrb : readVec
      (sampleSeqR draws inits (bayesianAgent obsDim actDim nCellTypes R).critic
        (sampleSeqR draws inits (bayesianAgent obsDim actDim nCellTypes R).actor_mean s 0).2.1
        (sampleSeqR draws inits (bayesianAgent obsDim actDim nCellTypes R).actor_mean s 0).2.2).2.1.heap
      ((sampleSeqR draws inits (bayesianAgent obsDim actDim nCellTypes R).actor_mean s 0).2.1.next + 5)
    = readVec (sampleSeqR draws inits (bayesianAgent obsDim actDim nCellTypes R).actor_mean s 0).2.1.heap
      R.cOutB := hcr.2.2.2.2.2.2
  constructor
  · refine ⟨ham.1, ham.2.1, ham.2.2.1, s.next + 4, s.next + 5, ham.2.2.2.1, by omega, by omega,
      ?_, ?_⟩
    · have step1 : readMat
          (sample_vanilla_agent (bayesianAgent obsDim actDim nCellTypes R) draws inits s).2.heap
          (s.next + 4)
        = readMat (sampleSeqR draws inits (bayesianAgent obsDim actDim nCellTypes R).critic
            (sampleSeqR draws inits (bayesianAgent obsDim actDim nCellTypes R).actor_mean s 0).2.1
            (sampleSeqR draws inits (bayesianAgent obsDim actDim nCellTypes R).actor_mean s 0).2.2).2.1.heap
          (s.next + 4) :=
        readMat_eq_of _ _ _ (setCell_ne _ _ _ _ (by omega))
      have step2 : (sampleSeqR draws inits (bayesianAgent obsDim actDim nCellTypes R).critic
            (sampleSeqR draws inits (bayesianAgent obsDim actDim nCellTypes R).actor_mean s 0).2.1
            (sampleSeqR draws inits (bayesianAgent obsDim actDim nCellTypes R).actor_mean s 0).2.2).2.1.heap
          (s.next + 4)
        = (sampleSeqR draws inits (bayesianAgent obsDim actDim nCellTypes R).actor_mean s 0).2.1.heap
          (s.next + 4) :=
        sampleSeqR_heap_lt draws inits _ _ _ _ (by omega)
      rw [step1, readMat_eq_of _ _ _ step2]
      exact ham.2.2.2.2.2.1
    · have step1 : readVec
          (sample_vanilla_agent (bayesianAgent obsDim actDim nCellTypes R) draws inits s).2.heap
          (s.next + 5)
        = readVec (sampleSeqR draws inits (bayesianAgent obsDim actDim nCellTypes R).critic
            (sampleSeqR draws inits (bayesianAgent obsDim actDim nCellTypes R).actor_mean s 0).2.1
            (sampleSeqR draws inits (bayesianAgent obsDim actDim nCellTypes R).actor_mean s 0).2.2).2.1.heap
          (s.next + 5) :=
        readVec_eq_of _ _ _ (setCell_ne _ _ _ _ (by omega))
      have step2 : (sampleSeqR draws inits (bayesianAgent obsDim actDim nCellTypes R).critic
            (sampleSeqR draws inits (bayesianAgent obsDim actDim nCellTypes R).actor_mean s 0).2.1
            (sampleSeqR draws inits (bayesianAgent obsDim actDim nCellTypes R).actor_mean s 0).2.2).2.1.heap
          (s.next + 5)
        = (sampleSeqR draws inits (bayesianAgent obsDim actDim nCellTypes R).actor_mean s 0).2.1.heap
          (s.next + 5) :=
        sampleSeqR_heap_lt draws inits _ _ _ _ (by omega)
      rw [step1, readVec_eq_of _ _ _ step2]
      exact ham.2.2.2.2.2.2
  · refine ⟨hcr.1, hcr.2.1, hcr.2.2.1,
      (sampleSeqR draws inits (bayesianAgent obsDim actDim nCellTypes R).actor_mean s 0).2.1.next + 4,
      (sampleSeqR draws inits (bayesianAgent obsDim actDim nCellTypes R).actor_mean s 0).2.1.next + 5,
      hcr.2.2.2.1, by omega, by omega, ?_, ?_⟩
    · have step1 : readMat
          (sample_vanilla_agent (bayesianAgent obsDim actDim nCellTypes R) draws inits s).2.heap
          ((sampleSeqR draws inits (bayesianAgent obsDim actDim nCellTypes R).actor_mean s 0).2.1.next + 4)
        = readMat (sampleSeqR draws inits (bayesianAgent obsDim actDim nCellTypes R).critic
            (sampleSeqR draws inits (bayesianAgent obsDim actDim nCellTypes R).actor_mean s 0).2.1
            (sampleSeqR draws inits (bayesianAgent obsDim actDim nCellTypes R).actor_mean s 0).2.2).2.1.heap
          ((sampleSeqR draws inits (bayesianAgent obsDim actDim nCellTypes R).actor_mean s 0).2.1.next + 4) :=
        readMat_eq_of _ _ _ (setCell_ne _ _ _ _ (by omega))
      rw [step1, hcrw]
      exact readMat_eq_of _ _ _ (sampleSeqR_heap_lt draws inits _ _ _ _ (by omega))
    · have step1 : readVec
          (sample_vanilla_agent (bayesianAgent obsDim actDim nCellTypes R) draws inits s).2.heap
          ((sampleSeqR draws inits (bayesianAgent obsDim actDim nCellTypes R).actor_mean s 0).2.1.next + 5)
        = readVec (sampleSeqR draws inits (bayesianAgent obsDim actDim nCellTypes R).critic
            (sampleSeqR draws inits (bayesianAgent obsDim actDim nCellTypes R).actor_mean s 0).2.1
            (sampleSeqR draws inits (bayesianAgent obsDim actDim nCellTypes R).actor_mean s 0).2.2).2.1.heap
          ((sampleSeqR draws inits (bayesianAgent obsDim actDim nCellTypes R).actor_mean s 0).2.1.next + 5) :=
        readVec_eq_of _ _ _ (setCell_ne _ _ _ _ (by omega))
      rw [step1, hcrb]
      exact readVec_eq_of _ _ _ (sampleSeqR_heap_lt draws inits _ _ _ _ (by omega))

theorem C2_deterministic_components_copied_witness :
    (∀ q ∈ agentRefs (bayesianAgent 48 12 256
        ⟨0, 1, 2, 3, 4, 5, 6, 7, 8, 9, 10, 11, 12, 13, 14, 15, 16, 17, 18, 19, 20⟩),
      q < (21 : Nat))
    ∧ (sample_vanilla_agent (bayesianAgent 48 12 256
        ⟨0, 1, 2, 3, 4, 5, 6, 7, 8, 9, 10, 11, 12, 13, 14, 15, 16, 17, 18, 19, 20⟩)
        (fun _ => ([], [])) (fun _ => ([], []))
        ⟨fun _ => Cell.vec [], 21⟩).1.actor_mean.length = 5
    ∧ (sample_vanilla_agent (bayesianAgent 48 12 256
        ⟨0, 1, 2, 3, 4, 5, 6, 7, 8, 9, 10, 11, 12, 13, 14, 15, 16, 17, 18, 19, 20⟩)
        (fun _ => ([], [])) (fun _ => ([], []))
        ⟨fun _ => Cell.vec [], 21⟩).1.actor_mean.getD 1 (RComp.other 0) = RComp.tanh
    ∧ (sample_vanilla_agent (bayesianAgent 48 12 256
        ⟨0, 1, 2, 3, 4, 5, 6, 7, 8, 9, 10, 11, 12, 13, 14, 15, 16, 17, 18, 19, 20⟩)
        (fun _ => ([], [])) (fun _ => ([], []))
        ⟨fun _ => Cell.vec [], 21⟩).1.critic.length = 5 := by
  have h := C2_deterministic_components_copied 48 12 256
    ⟨0, 1, 2, 3, 4, 5, 6, 7, 8, 9, 10, 11, 12, 13, 14, 15, 16, 17, 18, 19, 20⟩
    (fun _ => ([], [])) (fun _ => ([], [])) ⟨fun _ => Cell.vec [], 21⟩ (by decide)
  exact ⟨by decide, h.1.1, h.1.2.1, h.2.1⟩

end CleanRLPPO
